import Mathlib

/-!
Verification of the Geo-Distance repository's turn-maneuver solver and
flat-earth geodesy layer, as a shallow embedding over exact real arithmetic.

`src/distance.py` is embedded by `Distance`, `firstRadius`, `selectRadius`,
`tangent_a`, `tangent_ab`, `angle_raw`, `turn_angle_calc`, `turn_dist_calc`,
`Distance.get_turn_angle` and `Distance.get_turn_dist`.
`src/location.py` is embedded by `Location`, `earth_r1`, `earth_r2`,
`Location.get_distance`, `Location.get_location` and `Location.get_bearing`.
`src/geo_distance/location.py`'s spherical bearing is embedded by
`GeoDistance.Location.get_bearing`.

Python's `math.atan2 y x` is modelled by `Complex.arg ⟨x, y⟩` (identical on
exact reals), `%` by `mod_two_pi` (floored remainder with positive modulus),
and `math.copysign` by `copysign` (reals carry no signed zero).  The
`try/except` around the closed-form tangent abscissa in the source is
modelled by the exact condition under which the tried arithmetic fails:
the divisor is zero or the square-root argument is negative.
-/

open Real

noncomputable section

/-- `math.atan2 y x` over exact reals: the argument of the complex number
`x + y·I`, valued in `(-π, π]` with `atan2 0 0 = 0`, exactly as the C/Python
`atan2` on non-signed-zero inputs. -/
def atan2 (y x : ℝ) : ℝ := Complex.arg ⟨x, y⟩

/-- Python's `t % (2*pi)` for real `t`: the floored remainder
`t - 2π·⌊t/(2π)⌋`, valued in `[0, 2π)`. -/
def mod_two_pi (t : ℝ) : ℝ := t - 2 * π * ⌊t / (2 * π)⌋

/-- Python's `math.copysign x s` over exact reals: `|x|` carrying the sign
of `s` (a real `s = 0` is non-negative, matching `copysign` at `+0.0`). -/
def copysign (x s : ℝ) : ℝ := if s < 0 then -|x| else |x|

/-- The `Distance` class of `src/distance.py`: a displacement vector with
components `x`, `y`, `z` in meters. -/
@[ext]
structure Distance where
  x : ℝ
  y : ℝ
  z : ℝ

/-- `Distance.add` (src/distance.py lines 22-31). -/
def Distance.add (self dist : Distance) : Distance :=
  ⟨self.x + dist.x, self.y + dist.y, self.z + dist.z⟩

/-- `Distance.subtract` (src/distance.py lines 33-39). -/
def Distance.subtract (self dist : Distance) : Distance :=
  ⟨self.x - dist.x, self.y - dist.y, self.z - dist.z⟩

/-- `Distance.get_magnitude` (src/distance.py lines 41-46). -/
def Distance.get_magnitude (self : Distance) : ℝ :=
  Real.sqrt (self.x ^ 2 + self.y ^ 2 + self.z ^ 2)

/-- `Distance.get_transform` (src/distance.py lines 55-64): clockwise
rotation of the x,y components by `angle`; z unchanged. -/
def Distance.get_transform (self : Distance) (angle : ℝ) : Distance :=
  ⟨self.x * Real.cos angle - self.y * Real.sin angle,
   self.x * Real.sin angle + self.y * Real.cos angle,
   self.z⟩

/-- `r = plane.turning_radius; if i < 0: r *= -1`
(src/distance.py lines 87-91 and 149-153). -/
def firstRadius (R i : ℝ) : ℝ := if i < 0 then -R else R

/-- The signed radius after the feasibility flip
`if (i - r)**2 + j**2 < r**2: r *= -1`
(src/distance.py lines 93-96 and 155-158). -/
def selectRadius (R i j : ℝ) : ℝ :=
  if (i - firstRadius R i) ^ 2 + j ^ 2 < (firstRadius R i) ^ 2
  then -(firstRadius R i) else firstRadius R i

/-- The closed-form tangent abscissa of src/distance.py lines 103-105:
`a = (r·i² − r²·i + r·j² − r·j·√(i² − 2·r·i + j²)) / (r² − 2·r·i + i² + j²)`. -/
def tangent_a (r i j : ℝ) : ℝ :=
  (r * i ^ 2 - r ^ 2 * i + r * j ^ 2 -
      r * j * Real.sqrt (i ^ 2 - 2 * r * i + j ^ 2)) /
    (r ^ 2 - 2 * r * i + i ^ 2 + j ^ 2)

/-- The pair `(a, b)` computed by src/distance.py lines 102-123 (identically
lines 164-185).  The `try` of the source fails exactly when the divisor
`r² − 2ri + i² + j²` is zero (`ZeroDivisionError`) or the square-root
argument `i² − 2ri + j²` is negative (`ValueError`); the `except` branch then
sets `a = 0` if `|i| < |r|` else `a = 2r`, and `b = 0`.  Otherwise the `else`
branch sets `b = √(r² − (a − r)²)`, negated when
`(j < 0 and |i| < 2|r|) or i/r < 0`. -/
def tangent_ab (r i j : ℝ) : ℝ × ℝ :=
  if r ^ 2 - 2 * r * i + i ^ 2 + j ^ 2 = 0 ∨ i ^ 2 - 2 * r * i + j ^ 2 < 0 then
    (if |i| < |r| then 0 else 2 * r, 0)
  else
    (tangent_a r i j,
     if (j < 0 ∧ |i| < 2 * |r|) ∨ i / r < 0 then
       -Real.sqrt (r ^ 2 - (tangent_a r i j - r) ^ 2)
     else
       Real.sqrt (r ^ 2 - (tangent_a r i j - r) ^ 2))

/-- `(atan2(b, abs(r) / r * (r - a))) % (2 * pi)`
(src/distance.py lines 127 and 188). -/
def angle_raw (r a b : ℝ) : ℝ := mod_two_pi (atan2 b (|r| / r * (r - a)))

/-- The turn angle computed by `Distance.get_turn_angle` from the turning
radius `R` and the waypoint displacement `(i, j)` in the vehicle frame
(src/distance.py lines 84-127): `copysign(angle_raw, r)` with `r` the
selected signed radius. -/
def turn_angle_calc (R i j : ℝ) : ℝ :=
  copysign
    (angle_raw (selectRadius R i j) (tangent_ab (selectRadius R i j) i j).1
      (tangent_ab (selectRadius R i j) i j).2)
    (selectRadius R i j)

/-- The altitude component `c` of `Distance.get_turn_dist`
(src/distance.py lines 187-203): `circ_dist_xy = |r|·|angle|`,
`lin_dist_xy = √((i−a)² + (j−b)²)`, and
`c = circ/(circ+lin)·k`, or `0` when the divisor is zero
(the caught `ZeroDivisionError`). -/
def turn_dist_c (r i j k a b : ℝ) : ℝ :=
  if |r| * |angle_raw r a b| + Real.sqrt ((i - a) ^ 2 + (j - b) ^ 2) = 0 then 0
  else
    |r| * |angle_raw r a b| /
        (|r| * |angle_raw r a b| + Real.sqrt ((i - a) ^ 2 + (j - b) ^ 2)) * k

/-- The point `(a, b, c)` computed by `Distance.get_turn_dist` from the
turning radius `R` and the waypoint displacement `(i, j, k)` in the vehicle
frame (src/distance.py lines 145-207). -/
def turn_dist_calc (R i j k : ℝ) : ℝ × ℝ × ℝ :=
  ((tangent_ab (selectRadius R i j) i j).1,
   (tangent_ab (selectRadius R i j) i j).2,
   turn_dist_c (selectRadius R i j) i j k
     (tangent_ab (selectRadius R i j) i j).1
     (tangent_ab (selectRadius R i j) i j).2)

/-- Modelled from the spec: `EARTH_RADIUS` is imported by `src/location.py`
from a `constants` module that is not part of the sources; the value is the
one recorded as `Location.EARTH_RADIUS` in `src/geo_distance/location.py`. -/
def EARTH_RADIUS : ℝ := 6371008

/-- Modelled from the spec: `EARTH_ECCEN` is imported by `src/location.py`
from a `constants` module that is not part of the sources; the value is the
one recorded as `Location.EARTH_ECCEN` in `src/geo_distance/location.py`. -/
def EARTH_ECCEN : ℝ := 0.0818191908

/-- The meridional radius of curvature `r_1` of `Location._get_earth_radii`
(src/location.py lines 27-33). -/
def earth_r1 (lat : ℝ) : ℝ :=
  EARTH_RADIUS * (1 - EARTH_ECCEN ^ 2) /
    (1 - EARTH_ECCEN ^ 2 * Real.sin lat ^ 2) ^ ((3 : ℝ) / 2)

/-- The normal radius of curvature `r_2` of `Location._get_earth_radii`
(src/location.py lines 27-33). -/
def earth_r2 (lat : ℝ) : ℝ :=
  EARTH_RADIUS / Real.sqrt (1 - EARTH_ECCEN ^ 2 * Real.sin lat ^ 2)

/-- The `Location` class of `src/location.py`: latitude and longitude in
radians, altitude in meters. -/
@[ext]
structure Location where
  lat : ℝ
  lon : ℝ
  alt : ℝ

/-- `Location.get_distance` (src/location.py lines 35-51): flat-earth
displacement from `self` to `loc`, rotated by `angle` when `angle` is
truthy (i.e. nonzero). -/
def Location.get_distance (self loc : Location) (angle : ℝ) : Distance :=
  if angle = 0 then
    ⟨earth_r2 self.lat * Real.cos self.lat * (loc.lon - self.lon),
     earth_r1 self.lat * (loc.lat - self.lat),
     loc.alt - self.alt⟩
  else
    (Distance.get_transform
      ⟨earth_r2 self.lat * Real.cos self.lat * (loc.lon - self.lon),
       earth_r1 self.lat * (loc.lat - self.lat),
       loc.alt - self.alt⟩ angle)

/-- `Location.get_location` (src/location.py lines 53-64): inverse flat-earth
displacement.  The source computes `dist.x / e_radii[1] / cos(self.lat)`,
left-associated. -/
def Location.get_location (self : Location) (dist : Distance) : Location :=
  ⟨dist.y / earth_r1 self.lat + self.lat,
   dist.x / earth_r2 self.lat / Real.cos self.lat + self.lon,
   self.alt + dist.z⟩

/-- `Location.get_bearing` (src/location.py lines 66-70):
`atan2(dist.x, dist.y) % (2*pi)` of the flat-earth displacement. -/
def Location.get_bearing (self loc : Location) : ℝ :=
  mod_two_pi (atan2 (self.get_distance loc 0).x (self.get_distance loc 0).y)

namespace GeoDistance

/-- The `Location` class of `src/geo_distance/location.py`: latitude and
longitude in radians (no altitude). -/
@[ext]
structure Location where
  lat : ℝ
  lon : ℝ

/-- `Location.get_bearing` (src/geo_distance/location.py lines 216-225):
`atan2(cos(lat2)·sin(dLon), cos(lat1)·sin(lat2) − sin(lat1)·cos(lat2)·cos(dLon))`,
not reduced modulo 2π. -/
def Location.get_bearing (self loc : Location) : ℝ :=
  atan2 (Real.cos loc.lat * Real.sin (loc.lon - self.lon))
    (Real.cos self.lat * Real.sin loc.lat -
      Real.sin self.lat * Real.cos loc.lat * Real.cos (loc.lon - self.lon))

end GeoDistance

/-- Modelled from the spec: "initial great-circle bearing from self to other
(standard spherical bearing formula)" — the standard formula
`atan2(cos(lat2)·sin(Δlon), cos(lat1)·sin(lat2) − sin(lat1)·cos(lat2)·cos(Δlon))`,
stated independently of the repository's code for comparison against it. -/
def sphericalBearing (lat1 lon1 lat2 lon2 : ℝ) : ℝ :=
  atan2 (Real.cos lat2 * Real.sin (lon2 - lon1))
    (Real.cos lat1 * Real.sin lat2 -
      Real.sin lat1 * Real.cos lat2 * Real.cos (lon2 - lon1))

/-- The host vehicle object consumed by `Distance.get_turn_angle` and
`Distance.get_turn_dist`: current location, heading, next waypoint and
turning radius. -/
structure Plane where
  loc : Location
  heading : ℝ
  next_wp : Location
  turning_radius : ℝ

/-- The effective `loc` argument of `get_turn_angle`/`get_turn_dist`
(src/distance.py lines 75-76 and 136-137): `if not loc: loc = plane.loc`.
A `Location` instance is always truthy in Python, so only an omitted or
`None` argument (modelled by `none`) is replaced. -/
def effectiveLoc (plane : Plane) : Option Location → Location
  | none => plane.loc
  | some l => l

/-- The effective `heading` argument of `get_turn_angle`/`get_turn_dist`
(src/distance.py lines 78-79 and 139-140): `if not heading: heading =
plane.heading`.  A numeric `0` is falsy in Python, so an explicit heading
of `0` is replaced by `plane.heading` exactly like an omitted argument. -/
def effectiveHeading (plane : Plane) : Option ℝ → ℝ
  | none => plane.heading
  | some h => if h = 0 then plane.heading else h

/-- `Distance.get_turn_angle` (src/distance.py lines 67-127). -/
def Distance.get_turn_angle (plane : Plane) (loc : Option Location)
    (heading : Option ℝ) : ℝ :=
  turn_angle_calc plane.turning_radius
    ((effectiveLoc plane loc).get_distance plane.next_wp
      (effectiveHeading plane heading)).x
    ((effectiveLoc plane loc).get_distance plane.next_wp
      (effectiveHeading plane heading)).y

/-- `Distance.get_turn_dist` (src/distance.py lines 130-207). -/
def Distance.get_turn_dist (plane : Plane) (loc : Option Location)
    (heading : Option ℝ) : ℝ × ℝ × ℝ :=
  turn_dist_calc plane.turning_radius
    ((effectiveLoc plane loc).get_distance plane.next_wp
      (effectiveHeading plane heading)).x
    ((effectiveLoc plane loc).get_distance plane.next_wp
      (effectiveHeading plane heading)).y
    ((effectiveLoc plane loc).get_distance plane.next_wp
      (effectiveHeading plane heading)).z

/-! ## Helper lemmas -/

lemma copysign_of_pos (x s : ℝ) (hs : 0 < s) : copysign x s = |x| :=
  if_neg (not_lt.2 hs.le)

lemma copysign_of_neg (x s : ℝ) (hs : s < 0) : copysign x s = -|x| :=
  if_pos hs

lemma copysign_neg_right (x s : ℝ) (hs : s ≠ 0) :
    copysign x (-s) = -(copysign x s) := by
  rcases hs.lt_or_lt with h | h
  · rw [copysign_of_pos x _ (neg_pos.2 h), copysign_of_neg x s h, neg_neg]
  · rw [copysign_of_neg x _ (neg_neg_iff_pos.2 h), copysign_of_pos x s h]

lemma selectRadius_eq_or (R i j : ℝ) :
    selectRadius R i j = R ∨ selectRadius R i j = -R := by
  unfold selectRadius firstRadius
  split_ifs <;> simp

lemma selectRadius_ne_zero (R i j : ℝ) (hR : R ≠ 0) :
    selectRadius R i j ≠ 0 := by
  rcases selectRadius_eq_or R i j with h | h <;> rw [h] <;> simpa using hR

lemma mod_two_pi_eq_self {x : ℝ} (h0 : 0 ≤ x) (h2 : x < 2 * π) :
    mod_two_pi x = x := by
  unfold mod_two_pi
  have hfl : ⌊x / (2 * π)⌋ = 0 := by
    refine Int.floor_eq_zero_iff.2 ⟨?_, ?_⟩
    · exact div_nonneg h0 (by positivity)
    · rw [div_lt_one (by positivity)]
      exact h2
  rw [hfl]
  simp

lemma mod_two_pi_zero : mod_two_pi 0 = 0 :=
  mod_two_pi_eq_self le_rfl Real.two_pi_pos

/-! ## C2 — degenerate-case fallback -/

/-- C2.  Degenerate-case policy: whenever the closed-form expression for `a`
fails — the divisor `r² − 2ri + i² + j²` is zero or the square-root argument
`i² − 2ri + j²` is negative — the solver sets `a = 0` if `|i| < |r|` and
`a = 2r` otherwise, and `b = 0`, continuing through the normal control path
(in the embedding `tangent_ab` is a total function whose value feeds
`angle_raw` exactly like the non-degenerate one). -/
theorem degenerate_fallback (r i j : ℝ)
    (h : r ^ 2 - 2 * r * i + i ^ 2 + j ^ 2 = 0 ∨ i ^ 2 - 2 * r * i + j ^ 2 < 0) :
    tangent_ab r i j = (if |i| < |r| then 0 else 2 * r, 0) := by
  unfold tangent_ab
  exact if_pos h

/-- Witness for C2 at `(r, i, j) = (1, 1, 0)`, where the divisor
`r² − 2ri + i² + j²` vanishes. -/
theorem degenerate_fallback_witness :
    tangent_ab 1 1 0 = (if |(1 : ℝ)| < |(1 : ℝ)| then 0 else 2 * 1, 0) :=
  degenerate_fallback 1 1 0 (Or.inl (by norm_num))

/-! ## C3 — feasibility flip -/

/-- C3.  Feasibility flip: if the waypoint with `i > 0` lies strictly inside
the natural-side turning circle (`(i−R)² + j² < R²`), the solver negates the
signed radius a second time (selected radius `−R`) and the returned angle is
a left turn (`θ ≤ 0`); symmetrically for `i < 0` inside the left circle. -/
theorem feasibility_flip (R i j : ℝ) (hR : 0 < R) :
    (0 < i ∧ (i - R) ^ 2 + j ^ 2 < R ^ 2 →
      selectRadius R i j = -R ∧ turn_angle_calc R i j ≤ 0) ∧
    (i < 0 ∧ (i + R) ^ 2 + j ^ 2 < R ^ 2 →
      selectRadius R i j = R ∧ 0 ≤ turn_angle_calc R i j) := by
  constructor
  · rintro ⟨hi, hin⟩
    have hfr : firstRadius R i = R := if_neg (not_lt.2 hi.le)
    have hsel : selectRadius R i j = -R := by
      unfold selectRadius
      rw [hfr]
      exact if_pos hin
    refine ⟨hsel, ?_⟩
    unfold turn_angle_calc
    rw [hsel, copysign_of_neg _ _ (neg_neg_iff_pos.2 hR)]
    exact neg_nonpos.2 (abs_nonneg _)
  · rintro ⟨hi, hin⟩
    have hfr : firstRadius R i = -R := if_pos hi
    have hsel : selectRadius R i j = R := by
      unfold selectRadius
      rw [hfr, if_pos, neg_neg]
      rw [show (i - -R) ^ 2 + j ^ 2 = (i + R) ^ 2 + j ^ 2 from by ring,
        show (-R : ℝ) ^ 2 = R ^ 2 from by ring]
      exact hin
    refine ⟨hsel, ?_⟩
    unfold turn_angle_calc
    rw [hsel, copysign_of_pos _ _ hR]
    exact abs_nonneg _

/-- Witness for C3 at `R = 1`, `(i, j) = (1, 0)` (right side, strictly
inside the right turning circle) and `(i, j) = (-1, 0)` (left side, strictly
inside the left turning circle). -/
theorem feasibility_flip_witness :
    (selectRadius 1 1 0 = -1 ∧ turn_angle_calc 1 1 0 ≤ 0) ∧
    (selectRadius 1 (-1) 0 = 1 ∧ 0 ≤ turn_angle_calc 1 (-1) 0) :=
  ⟨(feasibility_flip 1 1 0 (by norm_num)).1 ⟨by norm_num, by norm_num⟩,
   (feasibility_flip 1 (-1) 0 (by norm_num)).2 ⟨by norm_num, by norm_num⟩⟩

/-! ## C7 — the square root defining b is always defined -/

/-- C7.  Whenever the closed-form expression for `a` evaluates successfully
(nonnegative square-root argument; with `r ≠ 0` the divisor is then
automatically nonzero), the quantity `r² − (a − r)²` under the square root
defining `b` — evaluated outside the `try` block — is nonnegative, so the
solver completes without raising. -/
theorem b_sqrt_arg_nonneg (r i j : ℝ) (hr : r ≠ 0)
    (hD : 0 ≤ i ^ 2 - 2 * r * i + j ^ 2) :
    r ^ 2 - 2 * r * i + i ^ 2 + j ^ 2 ≠ 0 ∧
    0 ≤ r ^ 2 - (tangent_a r i j - r) ^ 2 := by
  have hr2 : 0 < r ^ 2 := by positivity
  have hQ : 0 < r ^ 2 - 2 * r * i + i ^ 2 + j ^ 2 := by nlinarith
  refine ⟨ne_of_gt hQ, ?_⟩
  have hs : Real.sqrt (i ^ 2 - 2 * r * i + j ^ 2) ^ 2 = i ^ 2 - 2 * r * i + j ^ 2 :=
    Real.sq_sqrt hD
  set s := Real.sqrt (i ^ 2 - 2 * r * i + j ^ 2) with hsdef
  have ha : tangent_a r i j - r =
      r * (r * (i - r) - j * s) / (r ^ 2 - 2 * r * i + i ^ 2 + j ^ 2) := by
    unfold tangent_a
    rw [div_sub' _ _ _ (ne_of_gt hQ)]
    rw [← hsdef]
    congr 1
    ring
  rw [ha, sub_nonneg, div_pow, div_le_iff₀ (by positivity)]
  have hid : (r ^ 2 - 2 * r * i + i ^ 2 + j ^ 2) ^ 2 - (r * (i - r) - j * s) ^ 2
      = (r * j + s * (i - r)) ^ 2 +
        (r ^ 2 - 2 * r * i + i ^ 2 + j ^ 2) *
          ((i ^ 2 - 2 * r * i + j ^ 2) - s ^ 2) := by
    ring
  rw [hs, sub_self, mul_zero, add_zero] at hid
  have key : (r * (i - r) - j * s) ^ 2 ≤ (r ^ 2 - 2 * r * i + i ^ 2 + j ^ 2) ^ 2 := by
    nlinarith [sq_nonneg (r * j + s * (i - r))]
  calc (r * (r * (i - r) - j * s)) ^ 2
      = r ^ 2 * (r * (i - r) - j * s) ^ 2 := by ring
    _ ≤ r ^ 2 * (r ^ 2 - 2 * r * i + i ^ 2 + j ^ 2) ^ 2 :=
        mul_le_mul_of_nonneg_left key hr2.le

/-- Witness for C7 at `(r, i, j) = (1, 0, 1)`. -/
theorem b_sqrt_arg_nonneg_witness :
    (1 : ℝ) ^ 2 - 2 * 1 * 0 + 0 ^ 2 + 1 ^ 2 ≠ 0 ∧
    0 ≤ (1 : ℝ) ^ 2 - (tangent_a 1 0 1 - 1) ^ 2 :=
  b_sqrt_arg_nonneg 1 0 1 (by norm_num) (by norm_num)

/-! ## C10 — falsy-argument substitution -/

/-- C10.  Falsy-argument substitution: calling `get_turn_angle` or
`get_turn_dist` with an explicit heading of `0` gives the same result as
omitting the argument (the solver substitutes `plane.heading`), and an
omitted/`None` `loc` behaves exactly like passing `plane.loc` explicitly —
so a caller cannot request a frame heading of exactly `0` that differs from
the plane's own heading. -/
theorem falsy_argument_substitution (plane : Plane) (l : Option Location)
    (h : Option ℝ) :
    Distance.get_turn_angle plane l (some 0) =
        Distance.get_turn_angle plane l none ∧
    Distance.get_turn_dist plane l (some 0) =
        Distance.get_turn_dist plane l none ∧
    Distance.get_turn_angle plane none h =
        Distance.get_turn_angle plane (some plane.loc) h ∧
    Distance.get_turn_dist plane none h =
        Distance.get_turn_dist plane (some plane.loc) h := by
  have he : effectiveHeading plane (some 0) = effectiveHeading plane none := by
    simp [effectiveHeading]
  have hl : effectiveLoc plane none = effectiveLoc plane (some plane.loc) := rfl
  refine ⟨?_, ?_, ?_, ?_⟩ <;>
    simp only [Distance.get_turn_angle, Distance.get_turn_dist, he, hl]

/-! ## C4 — flat-earth round trip -/

lemma one_sub_eccen_pos (lat : ℝ) :
    0 < 1 - EARTH_ECCEN ^ 2 * Real.sin lat ^ 2 := by
  have h1 : Real.sin lat ^ 2 ≤ 1 := Real.sin_sq_le_one lat
  have h2 : EARTH_ECCEN ^ 2 * Real.sin lat ^ 2 ≤ EARTH_ECCEN ^ 2 * 1 :=
    mul_le_mul_of_nonneg_left h1 (sq_nonneg _)
  have h3 : EARTH_ECCEN ^ 2 * 1 < 1 := by norm_num [EARTH_ECCEN]
  linarith

lemma earth_r1_pos (lat : ℝ) : 0 < earth_r1 lat := by
  unfold earth_r1
  apply div_pos
  · norm_num [EARTH_RADIUS, EARTH_ECCEN]
  · exact Real.rpow_pos_of_pos (one_sub_eccen_pos lat) _

lemma earth_r2_pos (lat : ℝ) : 0 < earth_r2 lat := by
  unfold earth_r2
  apply div_pos
  · norm_num [EARTH_RADIUS]
  · exact Real.sqrt_pos.2 (one_sub_eccen_pos lat)

/-- C4.  Flat-earth round trip: for every `Location` `self` with
`cos self.lat ≠ 0` and every `Location` `other`,
`self.get_location (self.get_distance other 0)` reproduces `other` exactly —
the displacement and its inverse use the same radii of curvature, evaluated
at `self.lat`, and cancel algebraically. -/
theorem flat_earth_round_trip (self other : Location)
    (h : Real.cos self.lat ≠ 0) :
    self.get_location (self.get_distance other 0) = other := by
  have h1 : earth_r1 self.lat ≠ 0 := (earth_r1_pos self.lat).ne'
  have h2 : earth_r2 self.lat ≠ 0 := (earth_r2_pos self.lat).ne'
  unfold Location.get_location Location.get_distance
  rw [if_pos rfl]
  ext
  · show earth_r1 self.lat * (other.lat - self.lat) / earth_r1 self.lat +
        self.lat = other.lat
    field_simp
  · show earth_r2 self.lat * Real.cos self.lat * (other.lon - self.lon) /
        earth_r2 self.lat / Real.cos self.lat + self.lon = other.lon
    field_simp
  · show self.alt + (other.alt - self.alt) = other.alt
    ring

/-- Witness for C4 at `self = (0, 0, 0)`, `other = (1, 2, 3)`. -/
theorem flat_earth_round_trip_witness :
    Location.get_location ⟨0, 0, 0⟩
        (Location.get_distance ⟨0, 0, 0⟩ ⟨1, 2, 3⟩ 0) = ⟨1, 2, 3⟩ :=
  flat_earth_round_trip ⟨0, 0, 0⟩ ⟨1, 2, 3⟩ (by norm_num [Real.cos_zero])

/-! ## C9 — latitude range -/

/-- C9 (amended).  `Location.get_location` performs no clamping: the
produced latitude is `d.y / r₁ + self.lat`, so it lies in `[−π/2, π/2]`
exactly when that sum does; the invariant holds only under that assumption
on the displacement, not for every `Distance`. -/
theorem latitude_range_amended (self : Location) (d : Distance)
    (h : -(π / 2) ≤ self.lat + d.y / earth_r1 self.lat ∧
      self.lat + d.y / earth_r1 self.lat ≤ π / 2) :
    -(π / 2) ≤ (self.get_location d).lat ∧ (self.get_location d).lat ≤ π / 2 := by
  show -(π / 2) ≤ d.y / earth_r1 self.lat + self.lat ∧
      d.y / earth_r1 self.lat + self.lat ≤ π / 2
  constructor
  · linarith [h.1]
  · linarith [h.2]

/-- Witness for C9 (amended) at `self = (0, 0, 0)`, `d = (0, 0, 0)`. -/
theorem latitude_range_amended_witness :
    -(π / 2) ≤ (Location.get_location ⟨0, 0, 0⟩ ⟨0, 0, 0⟩).lat ∧
    (Location.get_location ⟨0, 0, 0⟩ ⟨0, 0, 0⟩).lat ≤ π / 2 :=
  latitude_range_amended ⟨0, 0, 0⟩ ⟨0, 0, 0⟩
    (by constructor <;> simp [zero_div] <;> positivity)

/-- Counterexample for C9 as stated: the input `Location` `(0, 0, 0)` has
latitude `0 ∈ [−π/2, π/2]`, yet displacing it by the `Distance`
`(0, π·r₁(0), 0)` yields latitude `π > π/2` — `get_location` does not keep
latitude within `[−π/2, π/2]`. -/
theorem latitude_range_cex :
    (-(π / 2) ≤ (0 : ℝ) ∧ (0 : ℝ) ≤ π / 2) ∧
    π / 2 < (Location.get_location ⟨0, 0, 0⟩
        ⟨0, π * (EARTH_RADIUS * (1 - EARTH_ECCEN ^ 2)), 0⟩).lat := by
  constructor
  · constructor <;> linarith [Real.pi_pos]
  · have hr : earth_r1 (0 : ℝ) = EARTH_RADIUS * (1 - EARTH_ECCEN ^ 2) := by
      unfold earth_r1
      rw [Real.sin_zero]
      norm_num [Real.one_rpow]
    show π / 2 < π * (EARTH_RADIUS * (1 - EARTH_ECCEN ^ 2)) / earth_r1 0 + 0
    rw [hr, mul_div_assoc,
      div_self (by norm_num [EARTH_RADIUS, EARTH_ECCEN]), mul_one]
    linarith [Real.pi_pos]

/-! ## C1 — zero-turn case -/

lemma angle_raw_pos_zero (R : ℝ) (hR : 0 < R) : angle_raw R 0 0 = 0 := by
  unfold angle_raw atan2
  have hx : |R| / R * (R - 0) = R := by
    rw [abs_of_pos hR, sub_zero, div_self hR.ne', one_mul]
  rw [hx]
  have harg : Complex.arg ⟨R, 0⟩ = 0 := by
    rw [show (⟨R, 0⟩ : ℂ) = (R : ℂ) from rfl]
    exact Complex.arg_ofReal_of_nonneg hR.le
  rw [harg, mod_two_pi_zero]

/-- C1.  Zero-turn case: for every turning radius `R > 0`, when the waypoint
displacement in the vehicle frame has `i = 0` and `j > 0` (waypoint exactly
along the current heading), `get_turn_angle` returns a turn angle of `0` and
`get_turn_dist` returns the transition point `(0, 0, 0)`. -/
theorem zero_turn_case (R j k : ℝ) (hR : 0 < R) (hj : 0 < j) :
    turn_angle_calc R 0 j = 0 ∧ turn_dist_calc R 0 j k = (0, 0, 0) := by
  have hfr : firstRadius R 0 = R := if_neg (lt_irrefl 0)
  have hsel : selectRadius R 0 j = R := by
    unfold selectRadius
    rw [hfr, if_neg]
    exact not_lt.2 (by nlinarith [sq_nonneg j])
  have hnd : ¬(R ^ 2 - 2 * R * 0 + 0 ^ 2 + j ^ 2 = 0 ∨
      0 ^ 2 - 2 * R * 0 + j ^ 2 < 0) := by
    push_neg
    constructor
    · have : 0 < R ^ 2 - 2 * R * 0 + 0 ^ 2 + j ^ 2 := by nlinarith
      exact this.ne'
    · nlinarith
  have ha : tangent_a R 0 j = 0 := by
    unfold tangent_a
    rw [show (0 : ℝ) ^ 2 - 2 * R * 0 + j ^ 2 = j ^ 2 from by ring,
      Real.sqrt_sq hj.le,
      show R * 0 ^ 2 - R ^ 2 * 0 + R * j ^ 2 - R * j * j = 0 from by ring,
      zero_div]
  have hab : tangent_ab R 0 j = (0, 0) := by
    unfold tangent_ab
    rw [if_neg hnd, ha,
      show R ^ 2 - ((0 : ℝ) - R) ^ 2 = 0 from by ring,
      Real.sqrt_zero, neg_zero, ite_self]
  constructor
  · unfold turn_angle_calc
    rw [hsel, hab]
    show copysign (angle_raw R 0 0) R = 0
    rw [angle_raw_pos_zero R hR, copysign_of_pos _ _ hR, abs_zero]
  · unfold turn_dist_calc
    rw [hsel, hab]
    show ((0 : ℝ), (0 : ℝ), turn_dist_c R 0 j k 0 0) = (0, 0, 0)
    have hc : turn_dist_c R 0 j k 0 0 = 0 := by
      unfold turn_dist_c
      rw [angle_raw_pos_zero R hR, abs_zero, mul_zero, zero_add,
        show ((0 : ℝ) - 0) ^ 2 + (j - 0) ^ 2 = j ^ 2 from by ring,
        Real.sqrt_sq hj.le, if_neg hj.ne', zero_div, zero_mul]
    rw [hc]

/-- Witness for C1 at `R = 1`, `(i, j, k) = (0, 1, 5)`. -/
theorem zero_turn_case_witness :
    turn_angle_calc 1 0 1 = 0 ∧ turn_dist_calc 1 0 1 5 = (0, 0, 0) :=
  zero_turn_case 1 1 5 (by norm_num) (by norm_num)

/-! ## C5 — mirror symmetry -/

lemma firstRadius_neg (R i : ℝ) (hi : i ≠ 0) :
    firstRadius R (-i) = -(firstRadius R i) := by
  rcases hi.lt_or_lt with h | h
  · unfold firstRadius
    rw [if_pos h, if_neg (not_lt.2 (neg_nonneg.2 h.le)), neg_neg]
  · unfold firstRadius
    rw [if_neg (not_lt.2 h.le), if_pos (neg_neg_iff_pos.2 h)]

lemma selectRadius_neg (R i j : ℝ) (hi : i ≠ 0) :
    selectRadius R (-i) j = -(selectRadius R i j) := by
  unfold selectRadius
  rw [firstRadius_neg R i hi,
    show (-i - -(firstRadius R i)) ^ 2 + j ^ 2
      = (i - firstRadius R i) ^ 2 + j ^ 2 from by ring,
    show (-(firstRadius R i)) ^ 2 = (firstRadius R i) ^ 2 from by ring]
  split_ifs <;> ring

lemma tangent_a_neg (r i j : ℝ) : tangent_a (-r) (-i) j = -(tangent_a r i j) := by
  unfold tangent_a
  rw [show (-i : ℝ) ^ 2 - 2 * -r * -i + j ^ 2 = i ^ 2 - 2 * r * i + j ^ 2 from
      by ring,
    show (-r) * (-i) ^ 2 - (-r) ^ 2 * -i + -r * j ^ 2 -
        -r * j * Real.sqrt (i ^ 2 - 2 * r * i + j ^ 2)
      = -(r * i ^ 2 - r ^ 2 * i + r * j ^ 2 -
          r * j * Real.sqrt (i ^ 2 - 2 * r * i + j ^ 2)) from by ring,
    show (-r : ℝ) ^ 2 - 2 * -r * -i + (-i) ^ 2 + j ^ 2
      = r ^ 2 - 2 * r * i + i ^ 2 + j ^ 2 from by ring,
    neg_div]

lemma tangent_ab_neg (r i j : ℝ) :
    tangent_ab (-r) (-i) j = (-(tangent_ab r i j).1, (tangent_ab r i j).2) := by
  unfold tangent_ab
  rw [show (-r : ℝ) ^ 2 - 2 * -r * -i + (-i) ^ 2 + j ^ 2
      = r ^ 2 - 2 * r * i + i ^ 2 + j ^ 2 from by ring,
    show (-i : ℝ) ^ 2 - 2 * -r * -i + j ^ 2 = i ^ 2 - 2 * r * i + j ^ 2 from
      by ring,
    abs_neg i, abs_neg r, neg_div_neg_eq, tangent_a_neg,
    show (-r : ℝ) ^ 2 - (-(tangent_a r i j) - -r) ^ 2
      = r ^ 2 - (tangent_a r i j - r) ^ 2 from by ring]
  split_ifs with hdeg habs hsgn
  · simp
  · simp only [Prod.mk.injEq]
    exact ⟨by ring, trivial⟩
  · rfl
  · rfl

lemma angle_raw_neg (r a b : ℝ) : angle_raw (-r) (-a) b = angle_raw r a b := by
  unfold angle_raw
  rw [abs_neg, div_neg, show (-r : ℝ) - -a = -(r - a) from by ring,
    neg_mul_neg]

lemma turn_dist_c_neg (r i j k a b : ℝ) :
    turn_dist_c (-r) (-i) j k (-a) b = turn_dist_c r i j k a b := by
  unfold turn_dist_c
  rw [angle_raw_neg, abs_neg,
    show (-i - -a : ℝ) ^ 2 + (j - b) ^ 2 = (i - a) ^ 2 + (j - b) ^ 2 from
      by ring]

/-- C5 (amended).  Mirror symmetry away from the centerline: for every
turning radius `R > 0` and every frame displacement `(i, j, k)` with
`i ≠ 0`, replacing `i` by `−i` negates the angle returned by
`get_turn_angle` and negates the `a` component of the point returned by
`get_turn_dist`, while the `b` and `c` components are unchanged.  (At
`i = 0` the strict `i < 0` turn-side rule breaks the symmetry: see the
counterexample.) -/
theorem mirror_symmetry (R i j k : ℝ) (hR : 0 < R) (hi : i ≠ 0) :
    turn_angle_calc R (-i) j = -(turn_angle_calc R i j) ∧
    (turn_dist_calc R (-i) j k).1 = -((turn_dist_calc R i j k).1) ∧
    (turn_dist_calc R (-i) j k).2.1 = (turn_dist_calc R i j k).2.1 ∧
    (turn_dist_calc R (-i) j k).2.2 = (turn_dist_calc R i j k).2.2 := by
  have hr0 : selectRadius R i j ≠ 0 := selectRadius_ne_zero R i j hR.ne'
  have h1 := selectRadius_neg R i j hi
  have h2 := tangent_ab_neg (selectRadius R i j) i j
  refine ⟨?_, ?_, ?_, ?_⟩
  · unfold turn_angle_calc
    rw [h1, h2]
    show copysign
        (angle_raw (-(selectRadius R i j)) (-((tangent_ab (selectRadius R i j) i j).1))
          ((tangent_ab (selectRadius R i j) i j).2))
        (-(selectRadius R i j))
      = -(copysign _ (selectRadius R i j))
    rw [angle_raw_neg, copysign_neg_right _ _ hr0]
  · unfold turn_dist_calc
    rw [h1, h2]
  · unfold turn_dist_calc
    rw [h1, h2]
  · unfold turn_dist_calc
    rw [h1, h2]
    show turn_dist_c (-(selectRadius R i j)) (-i) j k
        (-((tangent_ab (selectRadius R i j) i j).1))
        ((tangent_ab (selectRadius R i j) i j).2)
      = turn_dist_c (selectRadius R i j) i j k
        ((tangent_ab (selectRadius R i j) i j).1)
        ((tangent_ab (selectRadius R i j) i j).2)
    rw [turn_dist_c_neg]

/-- Witness for C5 (amended) at `R = 1`, `(i, j, k) = (1, 0, 2)`. -/
theorem mirror_symmetry_witness :
    turn_angle_calc 1 (-1) 0 = -(turn_angle_calc 1 1 0) ∧
    (turn_dist_calc 1 (-1) 0 2).1 = -((turn_dist_calc 1 1 0 2).1) ∧
    (turn_dist_calc 1 (-1) 0 2).2.1 = (turn_dist_calc 1 1 0 2).2.1 ∧
    (turn_dist_calc 1 (-1) 0 2).2.2 = (turn_dist_calc 1 1 0 2).2.2 :=
  mirror_symmetry 1 1 0 2 (by norm_num) (by norm_num)

lemma mod_two_pi_neg_half_pi : mod_two_pi (-(π / 2)) = 3 * π / 2 := by
  unfold mod_two_pi
  have hd : (-(π / 2)) / (2 * π) = -(1 / 4) := by
    rw [div_eq_iff Real.two_pi_pos.ne']
    ring
  have hfl : ⌊(-(1 / 4) : ℝ)⌋ = -1 := Int.floor_eq_iff.2 (by norm_num)
  rw [hd, hfl]
  push_cast
  ring

lemma selectRadius_behind : selectRadius 1 0 (-1) = 1 := by
  unfold selectRadius firstRadius
  norm_num

lemma tangent_ab_behind : tangent_ab 1 0 (-1) = (1, -1) := by
  have ha : tangent_a 1 0 (-1) = 1 := by
    unfold tangent_a
    rw [show (0 : ℝ) ^ 2 - 2 * 1 * 0 + (-1) ^ 2 = 1 from by norm_num,
      Real.sqrt_one]
    norm_num
  unfold tangent_ab
  rw [if_neg (by norm_num), ha, if_pos, show (1 : ℝ) ^ 2 - (1 - 1) ^ 2 = 1 from
    by norm_num, Real.sqrt_one]
  exact Or.inl ⟨by norm_num, by norm_num⟩

lemma turn_angle_behind : turn_angle_calc 1 0 (-1) = 3 * π / 2 := by
  unfold turn_angle_calc
  rw [selectRadius_behind, tangent_ab_behind]
  show copysign (angle_raw 1 1 (-1)) 1 = 3 * π / 2
  have hx : |(1 : ℝ)| / 1 * (1 - 1) = 0 := by norm_num
  have harg : atan2 (-1) 0 = -(π / 2) := by
    unfold atan2
    exact Complex.arg_eq_neg_pi_div_two_iff.2 ⟨rfl, by norm_num⟩
  unfold angle_raw
  rw [hx, harg, mod_two_pi_neg_half_pi, copysign_of_pos _ _ one_pos,
    abs_of_pos (by positivity)]

/-- Counterexample for C5 as stated: at `R = 1`, `(i, j) = (0, -1)`
(waypoint directly behind), mirroring `i ↦ -i` leaves the input unchanged
but the returned angle is `3π/2 ≠ 0`, so it is not negated: the strict
`i < 0` turn-side rule always picks a right turn on the centerline. -/
theorem mirror_symmetry_cex :
    turn_angle_calc 1 (-0) (-1) ≠ -(turn_angle_calc 1 0 (-1)) := by
  rw [neg_zero, turn_angle_behind]
  intro hc
  nlinarith [Real.pi_pos]

/-! ## C6 — concrete scenario -/

lemma selectRadius_concrete : selectRadius 100 200 0 = 100 := by
  unfold selectRadius firstRadius
  norm_num

lemma tangent_ab_concrete : tangent_ab 100 200 0 = (200, 0) := by
  have ha : tangent_a 100 200 0 = 200 := by
    unfold tangent_a
    rw [show (200 : ℝ) ^ 2 - 2 * 100 * 200 + 0 ^ 2 = 0 from by norm_num,
      Real.sqrt_zero]
    norm_num
  unfold tangent_ab
  rw [if_neg (by norm_num), ha, if_neg, show (100 : ℝ) ^ 2 - (200 - 100) ^ 2 = 0
    from by norm_num, Real.sqrt_zero]
  rintro (⟨h, _⟩ | h) <;> norm_num at h

lemma angle_raw_concrete : angle_raw 100 200 0 = π := by
  unfold angle_raw
  have hx : |(100 : ℝ)| / 100 * (100 - 200) = -100 := by
    rw [abs_of_pos (by norm_num : (0 : ℝ) < 100)]
    norm_num
  have harg : atan2 0 (-100) = π := by
    unfold atan2
    exact Complex.arg_eq_pi_iff.2 ⟨by norm_num, rfl⟩
  rw [hx, harg]
  exact mod_two_pi_eq_self Real.pi_pos.le (by linarith [Real.pi_pos])

/-- C6.  Concrete scenario: turning radius `R = 100`, waypoint displacement
`(i, j, k) = (200, 0, 0)` (directly to the right, same altitude):
`get_turn_angle` returns `θ > 0` (a right turn, in fact `θ = π`), and
`get_turn_dist` returns the point `(200, 0, 0)`, whose `a = 200` lies
between `0` and `2R` (at the far boundary `2R`), with `b = 0` and altitude
component `c = 0`. -/
theorem concrete_scenario :
    0 < turn_angle_calc 100 200 0 ∧
    (turn_dist_calc 100 200 0 0).1 = 200 ∧
    0 ≤ (turn_dist_calc 100 200 0 0).1 ∧
    (turn_dist_calc 100 200 0 0).1 ≤ 2 * 100 ∧
    (turn_dist_calc 100 200 0 0).2.1 = 0 ∧
    (turn_dist_calc 100 200 0 0).2.2 = 0 := by
  have hang : turn_angle_calc 100 200 0 = π := by
    unfold turn_angle_calc
    rw [selectRadius_concrete, tangent_ab_concrete]
    show copysign (angle_raw 100 200 0) 100 = π
    rw [angle_raw_concrete, copysign_of_pos _ _ (by norm_num : (0 : ℝ) < 100),
      abs_of_pos Real.pi_pos]
  have hdist : turn_dist_calc 100 200 0 0 = (200, 0, 0) := by
    unfold turn_dist_calc
    rw [selectRadius_concrete, tangent_ab_concrete]
    show ((200 : ℝ), (0 : ℝ), turn_dist_c 100 200 0 0 200 0) = (200, 0, 0)
    have hc : turn_dist_c 100 200 0 0 200 0 = 0 := by
      unfold turn_dist_c
      rw [angle_raw_concrete,
        show ((200 : ℝ) - 200) ^ 2 + (0 - 0) ^ 2 = 0 from by norm_num,
        Real.sqrt_zero, add_zero, if_neg, mul_zero]
      have : |(100 : ℝ)| * |π| = 100 * π := by
        rw [abs_of_pos (by norm_num : (0 : ℝ) < 100), abs_of_pos Real.pi_pos]
      rw [this]
      positivity
    rw [hc]
  rw [hang, hdist]
  refine ⟨Real.pi_pos, rfl, ?_, ?_, rfl, rfl⟩ <;> norm_num

/-! ## C8 — bearing formulas -/

/-- C8 (amended).  `Location.get_bearing` of `src/geo_distance/location.py`
returns exactly the standard spherical initial-bearing formula
`atan2(cos(lat2)·sin(Δlon), cos(lat1)·sin(lat2) − sin(lat1)·cos(lat2)·cos(Δlon))`,
computed directly from the coordinates without consulting any
displacement-model state; `Location.get_bearing` of `src/location.py`
instead returns the flat-earth bearing `atan2(dist.x, dist.y) mod 2π` of
`get_distance`, which differs from the spherical formula. -/
theorem bearing_spherical_geo (self loc : GeoDistance.Location) :
    GeoDistance.Location.get_bearing self loc =
      sphericalBearing self.lat self.lon loc.lat loc.lon := rfl

/-- Counterexample for C8 as stated: from `(lat, lon) = (0, 0)` to
`(0, π)`, the `src/location.py` `get_bearing` returns `π/2` (the flat-earth
bearing of a due-east displacement) while the standard spherical formula
returns `0`. -/
theorem bearing_not_spherical_cex :
    Location.get_bearing ⟨0, 0, 0⟩ ⟨0, π, 0⟩ ≠ sphericalBearing 0 0 0 π := by
  have hsrc : Location.get_bearing ⟨0, 0, 0⟩ ⟨0, π, 0⟩ = π / 2 := by
    unfold Location.get_bearing Location.get_distance
    rw [if_pos rfl]
    show mod_two_pi (atan2 (earth_r2 0 * Real.cos 0 * (π - 0))
      (earth_r1 0 * (0 - 0))) = π / 2
    rw [Real.cos_zero, mul_one, sub_zero, sub_self, mul_zero]
    have harg : atan2 (earth_r2 0 * π) 0 = π / 2 := by
      unfold atan2
      exact Complex.arg_eq_pi_div_two_iff.2
        ⟨rfl, mul_pos (earth_r2_pos 0) Real.pi_pos⟩
    rw [harg]
    exact mod_two_pi_eq_self (by positivity) (by linarith [Real.pi_pos])
  have hsph : sphericalBearing 0 0 0 π = 0 := by
    unfold sphericalBearing atan2
    have hz : (⟨Real.cos 0 * Real.sin 0 - Real.sin 0 * Real.cos 0 * Real.cos (π - 0),
        Real.cos 0 * Real.sin (π - 0)⟩ : ℂ) = 0 := by
      apply Complex.ext <;> simp [Real.sin_pi]
    rw [hz, Complex.arg_zero]
  rw [hsrc, hsph]
  exact div_ne_zero Real.pi_ne_zero two_ne_zero

end
